import Mathlib

/-!
Verification of the EventBus core (`src/include/EventBus.h`, `src/src/EventBus.cpp`)
against its natural-language specification.

The C++ classes are shallowly embedded: `std::string` topics become `List Char`,
the type-erased `Message`/`Response` hierarchy becomes tagged inductive types
(`typeid(T)` becomes a `Nat` tag), handler bodies become Lean functions whose
result distinguishes normal return, throwing an object derived from
`std::exception` (the only thing `catch (std::exception e)` catches), and
throwing anything else.  C++ undefined behaviour (e.g. `std::string::back()`
on an empty string) is modelled by `Option`/error results.
-/

namespace EventBusModel

/-- `EventBus::Topic = std::string`, modelled as its character sequence. -/
abbrev Topic := List Char

/-- Embedding of `EventBus::isTopicMatch` (`src/src/EventBus.cpp:34-41`):

```cpp
bool EventBus::isTopicMatch(const Topic& pattern, const Topic& topic) {
    if (pattern == "*") return true;
    if (pattern.back() == '*' &&
        topic.compare(0, pattern.length()-1, pattern, 0, pattern.length()-1) == 0) {
        return true;
    }
    return pattern == topic;
}
```

`pattern.back()` on an empty string is undefined behaviour
(`std::string::back` requires a non-empty string), modelled as `none`.
`topic.compare(0, n-1, pattern, 0, n-1) == 0` compares
`topic.substr(0, n-1)` with `pattern.substr(0, n-1)` where the counts are
clamped to the available lengths (`pos = 0` never throws); with
`n = pattern.length()` this is exactly
`topic.take (n-1) = pattern.take (n-1)` on the character sequences. -/
def isTopicMatch (pattern topic : Topic) : Option Bool :=
  if pattern = ['*'] then some true
  else
    match pattern.getLast? with
    | none => none
    | some c =>
      if c = '*' ∧ topic.take (pattern.length - 1) = pattern.take (pattern.length - 1)
      then some true
      else some (decide (pattern = topic))

/-- Matcher as worded by the spec (§4.3) and claim C2: rule 1 the literal
global wildcard, rule 2 the trailing-`*` literal-prefix comparison (only when
the pattern has a last character), rule 3 exact equality.  This is the
spec-side definition used to compare the code against the claim. -/
def specTopicMatch (pattern topic : Topic) : Bool :=
  if pattern = ['*'] then true
  else
    match pattern.getLast? with
    | some c =>
      if c = '*' then decide (topic.take (pattern.length - 1) = pattern.take (pattern.length - 1))
      else decide (pattern = topic)
    | none => decide (pattern = topic)

/-
The type-erased message/response model.  `typeid(T)` becomes a `Nat` tag and
the family `Val : Nat → Type` gives the payload type carried by each tag, so
`TypedMessage<T>` (EventBus.h:34-42) is the dependent pair of a tag and a
value of that tag's type.
-/

/-- `EventBus::TypedMessage<T>` behind the `Message` base class
(EventBus.h:22-26, 34-42): a payload value `data_` plus the runtime type
identity `typeid(T)`. -/
structure Message (Val : Nat → Type) where
  tag : Nat
  data : Val tag

/-- `EventBus::TypedResponse<T>` (EventBus.h:44-57).  The two C++
constructors: `TypedResponse(const T& data)` sets `valid_ = true`;
`TypedResponse()` sets `valid_ = false` (the `data_` member is then never
legally read: `get()` throws first). -/
inductive TypedResponse (α : Type) where
  | val (data : α)
  | empty
deriving DecidableEq

/-- `TypedResponse<T>::isValid` (EventBus.h:55). -/
def TypedResponse.isValid {α : Type} : TypedResponse α → Bool
  | .val _ => true
  | .empty => false

/-- `TypedResponse<T>::get` (EventBus.h:48-51): throws
`std::runtime_error("Invalid response")` when `valid_` is false, otherwise
returns the stored value. -/
def TypedResponse.get {α : Type} : TypedResponse α → Except String α
  | .val d => .ok d
  | .empty => .error "Invalid response"

/-- `EventBus::TypedResponse<void>` (EventBus.h:59-72): a single `bool valid_`
set by `TypedResponse(bool valid = true)` — note the default argument, so the
default-constructed void response is VALID. -/
structure VoidResponse where
  valid_ : Bool
deriving DecidableEq

/-- `TypedResponse<void>::isValid` (EventBus.h:68). -/
def VoidResponse.isValid (r : VoidResponse) : Bool := r.valid_

/-- `TypedResponse<void>::get` (EventBus.h:63-65). -/
def VoidResponse.get (r : VoidResponse) : Except String Unit :=
  if r.valid_ then .ok () else .error "Invalid response"

/-- A `shared_ptr<Response>` as dispatch sees it: some `TypedResponse<T>`
or a `TypedResponse<void>`, erased behind the `Response` base (EventBus.h:28-32). -/
inductive Response (Val : Nat → Type) where
  | typed (tag : Nat) (resp : TypedResponse (Val tag))
  | void (resp : VoidResponse)

/-- Virtual dispatch of `Response::isValid` (EventBus.h:31). -/
def Response.isValid {Val : Nat → Type} : Response Val → Bool
  | .typed _ r => r.isValid
  | .void r => r.isValid

/-- Outcome of invoking a handler body: a normal return of a
`shared_ptr<Response>`, a throw of an object derived from `std::exception`
(with its `what()` string — the only kind `catch (std::exception e)`
catches), or a throw of any other C++ value. -/
inductive HandlerOutcome (Val : Nat → Type) where
  | ok (r : Response Val)
  | throwStd (what : String)
  | throwOther

/-- `EventBus::Handler = std::function<shared_ptr<Response>(shared_ptr<Message>)>`
(EventBus.h:75), with throwing modelled in the outcome. -/
def Handler (Val : Nat → Type) := Message Val → HandlerOutcome Val

/-- The `wrappedHandler` lambda built by `EventBus::subscribe<T>`
(EventBus.h:136-142):

```cpp
auto wrappedHandler = [handler](std::shared_ptr<Message> msg) {
    auto typedMsg = std::dynamic_pointer_cast<TypedMessage<T>>(msg);
    if (!typedMsg) { return std::make_shared<TypedResponse<void>>(); }
    return handler(std::make_shared<T>(std::move(typedMsg->get())));
};
```

The `dynamic_pointer_cast` succeeds exactly when the message's concrete type
is `TypedMessage<T>`, i.e. when the tags agree.  On mismatch the returned
`make_shared<TypedResponse<void>>()` uses the default constructor argument
`valid = true`, so the mismatch capsule is a VALID void response.  On match,
`typedMsg->get()` returns `const T&`; `std::move` of it is `const T&&`, which
binds to the copy constructor, so the handler receives a fresh copy of the
stored payload. -/
def wrapHandler {Val : Nat → Type} (t : Nat) (handler : Val t → HandlerOutcome Val) :
    Handler Val :=
  fun msg =>
    if h : msg.tag = t then handler (h ▸ msg.data)
    else .ok (.void ⟨true⟩)

/-- `EventBus::Subscription` (EventBus.h:102-111).  `operator<` compares
`priority` only; `HandlerId = size_t` is a `Nat`, `priority` an `int`. -/
structure Subscription (Val : Nat → Type) where
  id : Nat
  topicPattern : Topic
  handler : Handler Val
  priority : Int

/-- `Subscription::operator<` as used by `std::stable_sort`
(EventBus.h:108-110, 152): ordering on `priority` alone.  `≼` is the
non-strict version `¬(b < a)` under which a stable sort leaves
equal-priority elements in their original relative order. -/
def prioLE {Val : Nat → Type} (a b : Subscription Val) : Prop :=
  a.priority ≤ b.priority

instance {Val : Nat → Type} : DecidableRel (@prioLE Val) :=
  fun a b => inferInstanceAs (Decidable (a.priority ≤ b.priority))

/-- `std::stable_sort(subscriptions_.begin(), subscriptions_.end())`
(EventBus.h:152).  `std::stable_sort` with the priority-only `operator<` is
extensionally unique (it produces the sort ordered by priority with
equal-priority elements in original order), so it is modelled by insertion
sort with non-strict comparison, which has exactly that behaviour. -/
def stableSortByPriority {Val : Nat → Type} (l : List (Subscription Val)) :
    List (Subscription Val) :=
  l.insertionSort (@prioLE Val)

/-- The mutable state of the bus that subscribe/unsubscribe/post touch:
`subscriptions_` and `handlerIdCounter_` (EventBus.h:113-120). -/
structure BusState (Val : Nat → Type) where
  subscriptions : List (Subscription Val)
  handlerIdCounter : Nat

/-- The freshly constructed bus: `EventBus() : running_(false), handlerIdCounter_(0)`
(EventBus.cpp:3) with the empty `subscriptions_` vector. -/
def initState (Val : Nat → Type) : BusState Val := ⟨[], 0⟩

/-- `EventBus::subscribe<T>` (EventBus.h:128-154): wraps the handler, takes
`id = ++handlerIdCounter_` (pre-increment: the first id is 1), appends the
subscription and stable-sorts by priority.  Returns the new state and the id. -/
def subscribe {Val : Nat → Type} (s : BusState Val) (topicPattern : Topic) (t : Nat)
    (handler : Val t → HandlerOutcome Val) (priority : Int) : BusState Val × Nat :=
  let id := s.handlerIdCounter + 1
  let sub : Subscription Val := ⟨id, topicPattern, wrapHandler t handler, priority⟩
  (⟨stableSortByPriority (s.subscriptions ++ [sub]), id⟩, id)

/-- `EventBus::unsubscribe` (EventBus.cpp:26-32): `erase(remove_if(... sub.id == id ...))`,
i.e. keep exactly the subscriptions whose id differs. -/
def unsubscribe {Val : Nat → Type} (s : BusState Val) (id : Nat) : BusState Val :=
  ⟨s.subscriptions.filter (fun sub => sub.id != id), s.handlerIdCounter⟩

/-- Dispatch-side error: the snapshot loop hit undefined behaviour in
`isTopicMatch` (empty pattern), or a handler threw something not derived
from `std::exception`, which `catch (std::exception e)` does not catch and
which therefore propagates out of the dispatch loop. -/
inductive DispatchError where
  | matchUB
  | uncaughtThrow
deriving DecidableEq

/-- The snapshot loop shared by `post` (EventBus.h:161-168) and
`dispatchLoop` (EventBus.cpp:58-66): under the subscription lock, copy every
subscription whose pattern matches the topic, preserving registry order. -/
def snapshotMatching {Val : Nat → Type} :
    List (Subscription Val) → Topic → Except DispatchError (List (Subscription Val))
  | [], _ => .ok []
  | sub :: rest, topic =>
    match isTopicMatch sub.topicPattern topic with
    | none => .error .matchUB
    | some true => (snapshotMatching rest topic).map (fun l => sub :: l)
    | some false => snapshotMatching rest topic

/-- The handler-invocation loop of `post` (EventBus.h:171-182): invoke each
snapshotted handler in order inside `try { ... } catch (std::exception e)`;
a normal result is appended to `results` iff `result->isValid()`; a caught
`std::exception` is printed to `cerr` and the loop continues; any other
thrown value is not caught and aborts `post`. -/
def runHandlers {Val : Nat → Type} :
    List (Subscription Val) → Message Val → Except DispatchError (List (Response Val))
  | [], _ => .ok []
  | sub :: rest, msg =>
    match sub.handler msg with
    | .ok r => (runHandlers rest msg).map (fun l => if r.isValid then r :: l else l)
    | .throwStd _ => runHandlers rest msg
    | .throwOther => .error .uncaughtThrow

/-- `EventBus::post<T>` (EventBus.h:156-185): wrap the message, snapshot the
matching subscriptions, run the handlers, return the collected valid
responses. -/
def post {Val : Nat → Type} (s : BusState Val) (topic : Topic) (t : Nat) (v : Val t) :
    Except DispatchError (List (Response Val)) :=
  match snapshotMatching s.subscriptions topic with
  | .error e => .error e
  | .ok handlers => runHandlers handlers ⟨t, v⟩

/-- `EventBus::MessageEvent` (EventBus.h:113-116): a pending (topic, erased
message) pair; the spec's `PendingMessage`. -/
structure MessageEvent (Val : Nat → Type) where
  topic : Topic
  message : Message Val

/-- `EventBus::postAsync<T>` (EventBus.h:188-197): wrap the message and push
it at the back of the FIFO `messageQueue_`. -/
def postAsync {Val : Nat → Type} (queue : List (MessageEvent Val)) (topic : Topic)
    (t : Nat) (v : Val t) : List (MessageEvent Val) :=
  queue ++ [⟨topic, ⟨t, v⟩⟩]

/-- The handler loop of `dispatchLoop` (EventBus.cpp:68-74): like the `post`
loop but results are discarded (`sub.handler(event.message);`), so only the
throw behaviour is observable. -/
def dispatchHandlers {Val : Nat → Type} :
    List (Subscription Val) → Message Val → Except DispatchError Unit
  | [], _ => .ok ()
  | sub :: rest, msg =>
    match sub.handler msg with
    | .throwOther => .error .uncaughtThrow
    | _ => dispatchHandlers rest msg

/-- What one pass of the worker loop body (EventBus.cpp:43-57) does, given
the current value of `running_` and the queue contents:

```cpp
while (running_) {
    { cv_.wait(lock, [this]{ return !running_ || !messageQueue_.empty(); });
      if (!running_) return;          // exits even if the queue is non-empty
      event = messageQueue_.front(); messageQueue_.pop(); }
    ... dispatch event ...
}
```

With `running_` false the loop exits immediately (both the `while` guard and
the in-loop `return` test only `!running_`, never the queue); with
`running_` true and an empty queue the thread suspends in `cv_.wait`;
otherwise it dequeues the front message and dispatches it. -/
inductive WorkerStep (Val : Nat → Type) where
  | exits
  | waits
  | dispatches (event : MessageEvent Val) (rest : List (MessageEvent Val))

/-- One iteration of `EventBus::dispatchLoop` (EventBus.cpp:43-76). -/
def dispatchLoopStep {Val : Nat → Type} (running : Bool) (queue : List (MessageEvent Val)) :
    WorkerStep Val :=
  if running then
    match queue with
    | [] => .waits
    | event :: rest => .dispatches event rest
  else .exits

/-
Registry invariant (claim C7): the registry is ordered by priority with ties
in registration order, and identifiers are positive, bounded by the counter,
and pairwise distinct.  Registration order coincides with identifier order
because `subscribe` assigns strictly increasing identifiers.
-/

variable {Val : Nat → Type}

/-- Strict registry order: earlier priority, or equal priority and earlier
registration (smaller identifier). -/
def regLT (a b : Subscription Val) : Prop :=
  a.priority < b.priority ∨ (a.priority = b.priority ∧ a.id < b.id)

/-- The registry invariant of the spec's §3: iteration order non-decreasing
by priority with equal priorities in registration order; every live
identifier positive, at most the counter, and unique. -/
def Invariant (s : BusState Val) : Prop :=
  s.subscriptions.Pairwise regLT ∧
  (∀ sub ∈ s.subscriptions, 0 < sub.id ∧ sub.id ≤ s.handlerIdCounter) ∧
  (s.subscriptions.map (fun sub => sub.id)).Nodup

/-- One public registry operation: a `subscribe<T>` call (with its pattern,
payload type tag, handler and priority) or an `unsubscribe` call. -/
inductive BusOp (Val : Nat → Type) where
  | sub (topicPattern : Topic) (tag : Nat) (handler : Val tag → HandlerOutcome Val)
      (priority : Int)
  | unsub (id : Nat)

/-- Apply one registry operation to the bus state. -/
def applyOp (s : BusState Val) : BusOp Val → BusState Val
  | .sub pat t h pri => (subscribe s pat t h pri).1
  | .unsub id => unsubscribe s id

/-- Run a sequence of registry operations from a starting state. -/
def applyOps (s : BusState Val) (ops : List (BusOp Val)) : BusState Val :=
  ops.foldl applyOp s

/-- Spec-side description of what `post` collects (spec §4.6 steps 3-5): in
subscription order, the responses of the handlers that returned normally,
kept exactly when `isValid()` is true. -/
def collectValid (subs : List (Subscription Val)) (msg : Message Val) :
    List (Response Val) :=
  subs.filterMap (fun sub => match sub.handler msg with
    | .ok r => if r.isValid then some r else none
    | _ => none)

/-- Mutation-observing variant of the `wrappedHandler` adapter
(EventBus.h:136-142), used to settle the payload-copy claim.  A typed
handler here receives the initial content of the `shared_ptr<T>` cell it is
handed and returns the final content of that cell (it may mutate the copy it
was given) together with its outcome.  On a tag match, the adapter executes

```cpp
return handler(std::make_shared<T>(std::move(typedMsg->get())));
```

`TypedMessage<T>::get` returns `const T&`, and `std::move` of a const lvalue
yields `const T&&`, which binds to `T`'s COPY constructor: the cell handed to
the handler is a fresh allocation holding a copy of `data_`.  The envelope's
`data_` is never written by the call, and the handler's writes land in its
own cell, which is dropped when the `shared_ptr` dies — hence the first
component below returns the envelope unchanged and the cell's final content
is discarded. -/
def wrapMutHandler (t : Nat) (handler : Val t → Val t × HandlerOutcome Val) :
    Message Val → Message Val × HandlerOutcome Val :=
  fun msg =>
    if h : msg.tag = t then
      ((msg, (handler (h ▸ msg.data)).2) : Message Val × HandlerOutcome Val)
    else (msg, .ok (.void ⟨true⟩))

/-- The dispatch loop of `post`/`dispatchLoop` over mutation-observing
handlers: invoke each adapter in order on the envelope, threading the
envelope the code actually passes to the next invocation, and record the
envelope each adapter was invoked with. -/
def deliverSeq : List ((t : Nat) × (Val t → Val t × HandlerOutcome Val)) →
    Message Val → Message Val × List (Message Val)
  | [], msg => (msg, [])
  | h :: rest, msg =>
    ((deliverSeq rest (wrapMutHandler h.1 h.2 msg).1).1,
      msg :: (deliverSeq rest (wrapMutHandler h.1 h.2 msg).1).2)

/-- Payload-type family used for concrete evaluations: every tag carries a
`Nat` payload.  (Distinct tags still model distinct C++ types: the adapter
compares tags, never values.) -/
abbrev NVal : Nat → Type := fun _ => Nat

theorem isTopicMatch_eq_spec (p t : Topic) (hp : p ≠ []) :
    isTopicMatch p t = some (specTopicMatch p t) := by
  unfold isTopicMatch specTopicMatch
  by_cases h1 : p = ['*']
  · simp [h1]
  · simp only [if_neg h1]
    cases hlast : p.getLast? with
    | none =>
      exact absurd (by simpa using hlast) hp
    | some c =>
      by_cases hc : c = '*'
      · subst hc
        by_cases h2 : t.take (p.length - 1) = p.take (p.length - 1)
        · simp [h2]
        · have hpt : p ≠ t := by
            rintro rfl
            exact h2 rfl
          simp [h2, hpt]
      · simp [hc]

theorem regLT_le {a b : Subscription Val} (h : regLT a b) : a.priority ≤ b.priority := by
  rcases h with h | ⟨h, _⟩
  · exact le_of_lt h
  · exact le_of_eq h

theorem pairwise_orderedInsert (x : Subscription Val) :
    ∀ l : List (Subscription Val), l.Pairwise regLT →
      (∀ y ∈ l, x.priority = y.priority → x.id < y.id) →
      (l.orderedInsert prioLE x).Pairwise regLT := by
  intro l
  induction l with
  | nil => intro _ _; simp [List.orderedInsert]
  | cons y ys ih =>
    intro hl hx
    rw [List.orderedInsert]
    split
    · rename_i hxy
      have hxy2 : x.priority ≤ y.priority := hxy
      refine List.Pairwise.cons ?_ hl
      intro z hz
      have hyz : ∀ w ∈ ys, y.priority ≤ w.priority := by
        intro w hw
        exact regLT_le (List.rel_of_pairwise_cons hl hw)
      have hle : x.priority ≤ z.priority := by
        rcases List.mem_cons.mp hz with h1 | h1
        · rw [h1]; exact hxy2
        · exact le_trans hxy2 (hyz z h1)
      rcases lt_or_eq_of_le hle with h | h
      · exact Or.inl h
      · exact Or.inr ⟨h, hx z hz h⟩
    · rename_i hxy
      have hyx : y.priority < x.priority :=
        lt_of_not_le (fun hle => hxy hle)
      refine List.Pairwise.cons ?_ ?_
      · intro z hz
        rcases (List.mem_orderedInsert prioLE).mp hz with h1 | h1
        · rw [h1]; exact Or.inl hyx
        · exact List.rel_of_pairwise_cons hl h1
      · exact ih (List.Pairwise.of_cons hl)
          (fun z hz h => hx z (List.mem_cons_of_mem y hz) h)

theorem pairwise_stableSort (l : List (Subscription Val))
    (h : l.Pairwise (fun a b => a.priority = b.priority → a.id < b.id)) :
    (stableSortByPriority l).Pairwise regLT := by
  induction l with
  | nil => simp [stableSortByPriority, List.insertionSort]
  | cons x xs ih =>
    have hx : ∀ y ∈ xs, x.priority = y.priority → x.id < y.id :=
      fun y hy => List.rel_of_pairwise_cons h hy
    have hxs := ih (List.Pairwise.of_cons h)
    show ((xs.insertionSort prioLE).orderedInsert prioLE x).Pairwise regLT
    exact pairwise_orderedInsert x _ hxs
      (fun y hy => hx y ((List.mem_insertionSort prioLE).mp hy))

theorem mem_stableSort {x : Subscription Val} {l : List (Subscription Val)} :
    x ∈ stableSortByPriority l ↔ x ∈ l :=
  List.mem_insertionSort prioLE

theorem invariant_subscribe (s : BusState Val) (pat : Topic) (t : Nat)
    (h : Val t → HandlerOutcome Val) (pri : Int) (hs : Invariant s) :
    Invariant (subscribe s pat t h pri).1 := by
  obtain ⟨hPW, hBound, hNodup⟩ := hs
  show Invariant (⟨stableSortByPriority (s.subscriptions ++
    [⟨s.handlerIdCounter + 1, pat, wrapHandler t h, pri⟩]),
    s.handlerIdCounter + 1⟩ : BusState Val)
  refine ⟨?_, ?_, ?_⟩
  · refine pairwise_stableSort _ ?_
    rw [List.pairwise_append]
    refine ⟨hPW.imp ?_, List.pairwise_singleton _ _, ?_⟩
    · intro a b hab heq
      rcases hab with h1 | ⟨_, h2⟩
      · exact absurd heq (ne_of_lt h1)
      · exact h2
    · intro a ha b hb _
      have hb2 : b = ⟨s.handlerIdCounter + 1, pat, wrapHandler t h, pri⟩ :=
        List.mem_singleton.mp hb
      rw [hb2]
      exact lt_of_le_of_lt (hBound a ha).2 (Nat.lt_succ_self _)
  · intro sub hsub
    have hmem := mem_stableSort.mp hsub
    rcases List.mem_append.mp hmem with hold | hnewm
    · exact ⟨(hBound sub hold).1, le_trans (hBound sub hold).2 (Nat.le_succ _)⟩
    · have hs2 : sub = ⟨s.handlerIdCounter + 1, pat, wrapHandler t h, pri⟩ :=
        List.mem_singleton.mp hnewm
      rw [hs2]
      exact ⟨Nat.succ_pos _, le_refl _⟩
  · have hperm : List.Perm
        ((stableSortByPriority (s.subscriptions ++
          [(⟨s.handlerIdCounter + 1, pat, wrapHandler t h, pri⟩ : Subscription Val)])).map
          (fun sub => sub.id))
        ((s.subscriptions ++
          [(⟨s.handlerIdCounter + 1, pat, wrapHandler t h, pri⟩ : Subscription Val)]).map
          (fun sub => sub.id)) :=
      (List.perm_insertionSort _ _).map _
    rw [hperm.nodup_iff, List.map_append, List.nodup_append]
    refine ⟨hNodup, by simp, ?_⟩
    intro a ha hb
    obtain ⟨sub, hsub2, rfl⟩ := List.mem_map.mp ha
    have h2 := (hBound sub hsub2).2
    have h3 : sub.id = s.handlerIdCounter + 1 := by simpa using hb
    omega

theorem invariant_unsubscribe (s : BusState Val) (id : Nat) (hs : Invariant s) :
    Invariant (unsubscribe s id) := by
  obtain ⟨hPW, hBound, hNodup⟩ := hs
  have hsub : (s.subscriptions.filter (fun sub => sub.id != id)).Sublist
      s.subscriptions := List.filter_sublist _
  refine ⟨hPW.sublist hsub, ?_, ?_⟩
  · intro sub hmem
    exact hBound sub (hsub.subset hmem)
  · exact hNodup.sublist (hsub.map _)

theorem invariant_applyOps (ops : List (BusOp Val)) :
    ∀ s : BusState Val, Invariant s → Invariant (applyOps s ops) := by
  induction ops with
  | nil => intro s hs; exact hs
  | cons op rest ih =>
    intro s hs
    have h1 : Invariant (applyOp s op) := by
      cases op with
      | sub pat t h pri => exact invariant_subscribe s pat t h pri hs
      | unsub id => exact invariant_unsubscribe s id hs
    exact ih (applyOp s op) h1

theorem invariant_init : Invariant (initState Val) := by
  refine ⟨List.Pairwise.nil, ?_, List.nodup_nil⟩
  intro sub hsub
  simp [initState] at hsub

theorem snapshotMatching_eq_filter (subs : List (Subscription Val)) (topic : Topic)
    (hPat : ∀ sub ∈ subs, sub.topicPattern ≠ []) :
    snapshotMatching subs topic =
      .ok (subs.filter (fun sub => specTopicMatch sub.topicPattern topic)) := by
  induction subs with
  | nil => rfl
  | cons x rest ih =>
    have hx := isTopicMatch_eq_spec x.topicPattern topic (hPat x (List.mem_cons_self x rest))
    have hr := ih (fun sub hsub => hPat sub (List.mem_cons_of_mem x hsub))
    cases hb : specTopicMatch x.topicPattern topic with
    | false => simp [snapshotMatching, hx, hb, hr]
    | true => simp [snapshotMatching, hx, hb, hr, Except.map]

theorem snapshotMatching_subset (subs : List (Subscription Val)) (topic : Topic)
    (matched : List (Subscription Val))
    (h : snapshotMatching subs topic = .ok matched) : ∀ sub ∈ matched, sub ∈ subs := by
  induction subs generalizing matched with
  | nil =>
    simp only [snapshotMatching, Except.ok.injEq] at h
    subst h
    intro sub hsub
    simp at hsub
  | cons x rest ih =>
    simp only [snapshotMatching] at h
    cases hm : isTopicMatch x.topicPattern topic with
    | none =>
      rw [hm] at h
      simp at h
    | some b =>
      rw [hm] at h
      cases b with
      | false =>
        simp only at h
        intro sub hsub
        exact List.mem_cons_of_mem x (ih matched h sub hsub)
      | true =>
        cases hs2 : snapshotMatching rest topic with
        | error e =>
          rw [hs2] at h
          simp [Except.map] at h
        | ok l =>
          rw [hs2] at h
          simp only [Except.map, Except.ok.injEq] at h
          subst h
          intro sub hsub
          rcases List.mem_cons.mp hsub with h1 | h1
          · rw [h1]; exact List.mem_cons_self x rest
          · exact List.mem_cons_of_mem x (ih l hs2 sub h1)

theorem runHandlers_eq_collectValid (subs : List (Subscription Val)) (msg : Message Val)
    (hOk : ∀ sub ∈ subs, ∃ r, sub.handler msg = .ok r) :
    runHandlers subs msg = .ok (collectValid subs msg) := by
  induction subs with
  | nil => rfl
  | cons x rest ih =>
    obtain ⟨r, hr⟩ := hOk x (List.mem_cons_self x rest)
    have ht := ih (fun sub hsub => hOk sub (List.mem_cons_of_mem x hsub))
    cases hv : r.isValid with
    | false => simp [runHandlers, collectValid, List.filterMap_cons, hr, ht, hv, Except.map]
    | true => simp [runHandlers, collectValid, List.filterMap_cons, hr, ht, hv, Except.map]

theorem collectValid_isValid (subs : List (Subscription Val)) (msg : Message Val) :
    ∀ r ∈ collectValid subs msg, r.isValid = true := by
  intro r hr
  obtain ⟨sub, hsub, hf⟩ := List.mem_filterMap.mp hr
  cases ho : sub.handler msg with
  | ok r0 =>
    rw [ho] at hf
    by_cases hv : r0.isValid
    · simp only [hv, if_true] at hf
      cases hf
      exact hv
    · simp only at hf
      rw [if_neg hv] at hf
      cases hf
  | throwStd w =>
    rw [ho] at hf
    simp at hf
  | throwOther =>
    rw [ho] at hf
    simp at hf

theorem wrapMutHandler_fst (t : Nat) (handler : Val t → Val t × HandlerOutcome Val)
    (msg : Message Val) : (wrapMutHandler t handler msg).1 = msg := by
  unfold wrapMutHandler
  split <;> rfl

theorem deliverSeq_eq (hs : List ((t : Nat) × (Val t → Val t × HandlerOutcome Val)))
    (msg : Message Val) : deliverSeq hs msg = (msg, hs.map (fun _ => msg)) := by
  induction hs generalizing msg with
  | nil => rfl
  | cons h rest ih =>
    simp only [deliverSeq, wrapMutHandler_fst, ih, List.map_cons]

/-- C2 (counterexample): the claim quantifies over every pattern, but for the
empty pattern the code does not return `pattern == topic` as the claim's
exact-match rule demands — it evaluates `pattern.back()` on an empty
`std::string`, which is undefined behaviour (modelled as `none`).  At
`pattern = ""`, `topic = "x"`, the claim predicts `false`; the code has no
defined result. -/
theorem isTopicMatch_empty_pattern_counterexample :
    isTopicMatch [] ['x'] ≠ some (specTopicMatch [] ['x']) := by decide

/-- C2 (amended): for every NONEMPTY pattern and every topic, `isTopicMatch`
returns exactly the claim's rules — `true` on the literal `"*"`; for a
pattern ending in `'*'`, `true` exactly when the topic's prefix of length
`len(pattern)-1` equals the pattern's prefix of the same length (a literal
prefix comparison); otherwise `true` exactly when the pattern equals the
topic.  (The fall-through `return pattern == topic` after a failed prefix
test adds nothing: a pattern ending in `'*'` equal to the topic would have
passed the prefix test.) -/
theorem isTopicMatch_matches_spec_on_nonempty (p t : Topic) (hp : p ≠ []) :
    isTopicMatch p t = some (specTopicMatch p t) :=
  isTopicMatch_eq_spec p t hp

theorem isTopicMatch_matches_spec_on_nonempty_witness :
    (['t', '*'] : Topic) ≠ [] ∧ isTopicMatch ['t', '*'] ['t', 'x'] = some true :=
  ⟨by decide,
    (isTopicMatch_matches_spec_on_nonempty ['t', '*'] ['t', 'x'] (by decide)).trans
      (by decide)⟩

/-- C4 (code bug): the claim (and spec §4.3's edge case) says `match("", topic)`
is defined and falls through to the exact-match rule, so `match("", "")` is
`true` and `match("", "x")` is `false`.  The code instead evaluates
`pattern.back()` — `std::string::back()` on an empty string, which is
undefined behaviour — before any fall-through can happen, so the empty
pattern has no defined result at all.  The model returns `none` at both
failing inputs. -/
theorem isTopicMatch_empty_pattern_is_ub :
    isTopicMatch [] [] = none ∧ isTopicMatch [] ['x'] = none := by decide

/-- C3 (counterexample): with a stop requested (`running_ = false`) and one
message still pending, the worker exits immediately — `dispatchLoop`'s
`if (!running_) return;` tests only `running_`, never queue emptiness — so
the pending message is neither dequeued nor dispatched, contradicting the
claim that the loop terminates only when the queue is empty and that every
message enqueued before the stop request is dispatched before exit. -/
theorem worker_exit_drops_pending_counterexample :
    @dispatchLoopStep NVal false [⟨['a'], ⟨0, 5⟩⟩] = .exits ∧
    ([⟨['a'], ⟨0, 5⟩⟩] : List (MessageEvent NVal)) ≠ [] :=
  ⟨rfl, by simp⟩

/-- C3 (amended): the worker loop terminates exactly when a stop has been
requested, REGARDLESS of the queue contents; while no stop is requested it
never exits (it waits when the queue is empty, otherwise dequeues and
dispatches).  Messages still pending at the stop request are discarded,
not dispatched. -/
theorem worker_exits_iff_stopped (running : Bool) (queue : List (MessageEvent Val)) :
    dispatchLoopStep running queue = .exits ↔ running = false := by
  cases running
  · simp [dispatchLoopStep]
  · cases queue <;> simp [dispatchLoopStep]

/-- C8 (confirmed): reading a value from an invalid capsule — typed or void —
yields the `InvalidResponse` failure (`std::runtime_error("Invalid response")`)
rather than a default value; reading a valid capsule returns the stored value
without error; and `isValid` is a pure boolean observation (side-effect-free
by construction in this embedding) that holds exactly on value-carrying
capsules, so filtering on it never takes the failure path. -/
theorem response_capsule_get_spec {α : Type} (r : TypedResponse α) (v : VoidResponse) :
    (r.isValid = false → r.get = .error "Invalid response") ∧
    (∀ d : α, r = .val d → r.get = .ok d) ∧
    (r.isValid = true ↔ ∃ d, r = .val d) ∧
    (v.isValid = false → v.get = .error "Invalid response") ∧
    (v.isValid = true → v.get = .ok ()) := by
  refine ⟨?_, ?_, ?_, ?_, ?_⟩
  · intro h
    cases r with
    | val d => simp [TypedResponse.isValid] at h
    | empty => rfl
  · intro d hd
    rw [hd]
    rfl
  · cases r with
    | val d => simp [TypedResponse.isValid]
    | empty => simp [TypedResponse.isValid]
  · intro h
    have h2 : v.valid_ = false := h
    simp [VoidResponse.get, h2]
  · intro h
    have h2 : v.valid_ = true := h
    simp [VoidResponse.get, h2]

theorem response_capsule_get_spec_witness :
    (TypedResponse.empty : TypedResponse Nat).get = .error "Invalid response" ∧
    TypedResponse.get (.val (7 : Nat)) = .ok 7 ∧
    VoidResponse.get ⟨false⟩ = .error "Invalid response" :=
  ⟨(response_capsule_get_spec (TypedResponse.empty : TypedResponse Nat) ⟨false⟩).1 rfl,
    (response_capsule_get_spec (TypedResponse.val (7 : Nat)) ⟨false⟩).2.1 7 rfl,
    (response_capsule_get_spec (TypedResponse.empty : TypedResponse Nat) ⟨false⟩).2.2.2.1 rfl⟩

/-- C6 (confirmed): the `wrappedHandler` adapter invoked on an envelope whose
concrete payload type differs from the subscription's declared type returns a
void capsule without raising — and its result does not depend on the wrapped
handler at all, i.e. the original handler is not called; on an exact tag
match it calls the original handler with the extracted payload.  (Note the
mismatch capsule is constructed by `make_shared<TypedResponse<void>>()`,
whose default argument makes it VALID; see C1.)  A mismatch therefore skips
only that handler and never fails the dispatch. -/
theorem wrapped_handler_type_check (t : Nat) (handler h2 : Val t → HandlerOutcome Val)
    (msg : Message Val) :
    (msg.tag ≠ t →
      wrapHandler t handler msg = .ok (.void ⟨true⟩) ∧
      wrapHandler t handler msg = wrapHandler t h2 msg) ∧
    (∀ heq : msg.tag = t, wrapHandler t handler msg = handler (heq ▸ msg.data)) := by
  constructor
  · intro hne
    constructor
    · simp [wrapHandler, hne]
    · simp [wrapHandler, hne]
  · intro heq
    cases msg with
    | mk tag data =>
      have h3 : tag = t := heq
      subst h3
      simp [wrapHandler]

theorem wrapped_handler_type_check_witness :
    @wrapHandler NVal 1 (fun v => .ok (.typed 1 (.val v))) ⟨2, 5⟩ =
      .ok (.void ⟨true⟩) :=
  ((@wrapped_handler_type_check NVal 1 (fun v => .ok (.typed 1 (.val v)))
    (fun _ => .throwOther) ⟨2, 5⟩).1 (by decide)).1

/-- C9 (confirmed): `unsubscribe(id)` keeps exactly the subscriptions whose
identifier differs from `id`, as a sublist of the original registry (so the
survivors are unmodified and keep their relative order); it is a no-op when
no subscription has that identifier; and every snapshot taken by a later
`post` or worker dispatch — both paths build their handler list with the
same matching loop, modelled by `snapshotMatching` — contains no
subscription with that identifier, so that handler is never invoked again. -/
theorem unsubscribe_spec (s : BusState Val) (id : Nat) :
    (∀ sub, sub ∈ (unsubscribe s id).subscriptions ↔
      sub ∈ s.subscriptions ∧ sub.id ≠ id) ∧
    List.Sublist (unsubscribe s id).subscriptions s.subscriptions ∧
    ((∀ sub ∈ s.subscriptions, sub.id ≠ id) → unsubscribe s id = s) ∧
    (∀ (topic : Topic) (matched : List (Subscription Val)),
      snapshotMatching (unsubscribe s id).subscriptions topic = .ok matched →
      ∀ sub ∈ matched, sub.id ≠ id) := by
  refine ⟨?_, ?_, ?_, ?_⟩
  · intro sub
    simp [unsubscribe, List.mem_filter]
  · exact List.filter_sublist _
  · intro hall
    cases s with
    | mk subs c =>
      simp only [unsubscribe, BusState.mk.injEq]
      refine ⟨?_, trivial⟩
      apply List.filter_eq_self.mpr
      intro a ha
      simpa using hall a ha
  · intro topic matched hsnap sub hsub
    have hmem := snapshotMatching_subset _ _ _ hsnap sub hsub
    have h2 := (List.mem_filter.mp hmem).2
    simpa using h2

theorem unsubscribe_spec_witness :
    @unsubscribe NVal ⟨[⟨1, ['a'], fun _ => .ok (.void ⟨true⟩), 0⟩], 1⟩ 2 =
      ⟨[⟨1, ['a'], fun _ => .ok (.void ⟨true⟩), 0⟩], 1⟩ := by
  apply (@unsubscribe_spec NVal
    ⟨[⟨1, ['a'], fun _ => .ok (.void ⟨true⟩), 0⟩], 1⟩ 2).2.2.1
  intro sub hsub
  have h2 : sub = ⟨1, ['a'], fun _ => .ok (.void ⟨true⟩), 0⟩ := by simpa using hsub
  rw [h2]
  decide

/-- C5 (counterexample): the dispatch sites catch only `catch (std::exception e)`,
so a handler that throws a value NOT derived from `std::exception` (a thrown
`int`, say) is not caught — it propagates out of `post`, aborting the whole
dispatch: here the registry holds a matching faulting handler followed by a
well-behaved one, and `post` produces no response list at all instead of
skipping the faulting handler and continuing. -/
theorem post_uncaught_failure_counterexample :
    @post NVal
      ⟨[⟨1, ['a'], fun _ => .throwOther, 0⟩,
        ⟨2, ['a'], fun _ => .ok (.void ⟨true⟩), 0⟩], 2⟩ ['a'] 0 5 =
      .error .uncaughtThrow := rfl

/-- C5 (amended): a handler failure of a type derived from `std::exception` —
the only kind the dispatch call sites' `catch (std::exception e)` catches —
is caught at the call site, contributes no response, and dispatch continues
with the remaining handlers, in both the synchronous `post` loop and the
worker's dispatch loop; failures of any other thrown type are not caught and
abort the dispatch (and, on the worker thread, terminate the process via
`std::terminate`). -/
theorem std_exception_caught_skips_handler (sub : Subscription Val)
    (rest : List (Subscription Val)) (msg : Message Val) (w : String)
    (h : sub.handler msg = .throwStd w) :
    runHandlers (sub :: rest) msg = runHandlers rest msg ∧
    dispatchHandlers (sub :: rest) msg = dispatchHandlers rest msg := by
  constructor
  · simp [runHandlers, h]
  · simp [dispatchHandlers, h]

theorem std_exception_caught_skips_handler_witness :
    @runHandlers NVal
      [⟨1, ['a'], fun _ => .throwStd "boom", 0⟩] ⟨0, 5⟩ = .ok [] :=
  ((@std_exception_caught_skips_handler NVal
    ⟨1, ['a'], fun _ => .throwStd "boom", 0⟩ [] ⟨0, 5⟩ "boom" rfl).1).trans rfl

/-- C1 (counterexample): a subscription whose declared payload type differs
from the posted message's type is matched, its adapter returns the
type-mismatch capsule `make_shared<TypedResponse<void>>()` — which the
default constructor argument makes VALID — and `post` therefore returns a
list containing that void capsule.  The claim's final clause says
invalid/void capsules contribute no entry; here a void capsule contributes
one (the returned list should then have been empty). -/
theorem post_valid_void_counterexample :
    @post NVal
      ⟨[⟨1, ['a'], wrapHandler 1 (fun v => .ok (.typed 1 (.val v))), 0⟩], 1⟩ ['a'] 2 5 =
      .ok [.void ⟨true⟩] ∧
    (@Response.void NVal ⟨true⟩).isValid = true :=
  ⟨rfl, rfl⟩

/-- C1 (amended): for a registry satisfying the invariant, with no empty
topic pattern (which would be undefined behaviour in the matcher) and every
handler returning normally, `post(topic, message)` returns exactly the
responses of the matching handlers whose capsule reports `isValid() == true`,
in registry order — which the invariant makes non-decreasing priority order
with ties in registration order — and the returned list may be empty.
Invalid capsules contribute no entry, but a VOID capsule constructed valid —
in particular the adapter's type-mismatch capsule — does contribute an
entry. -/
theorem post_collects_valid_in_priority_order (s : BusState Val) (topic : Topic)
    (t : Nat) (v : Val t) (hInv : Invariant s)
    (hPat : ∀ sub ∈ s.subscriptions, sub.topicPattern ≠ [])
    (hOk : ∀ sub ∈ s.subscriptions, ∃ r, sub.handler ⟨t, v⟩ = .ok r) :
    post s topic t v =
      .ok (collectValid
        (s.subscriptions.filter (fun sub => specTopicMatch sub.topicPattern topic))
        ⟨t, v⟩) ∧
    (s.subscriptions.filter (fun sub => specTopicMatch sub.topicPattern topic)).Pairwise
      regLT ∧
    ∀ r ∈ collectValid
        (s.subscriptions.filter (fun sub => specTopicMatch sub.topicPattern topic)) ⟨t, v⟩,
      r.isValid = true := by
  refine ⟨?_, hInv.1.sublist (List.filter_sublist _), collectValid_isValid _ _⟩
  unfold post
  rw [snapshotMatching_eq_filter s.subscriptions topic hPat]
  exact runHandlers_eq_collectValid _ _
    (fun sub hsub => hOk sub ((List.filter_sublist _).subset hsub))

theorem post_collects_valid_in_priority_order_witness :
    @post NVal
      ⟨[⟨1, ['a'], wrapHandler 1 (fun v => .ok (.typed 1 (.val v))), 0⟩], 1⟩ ['a'] 1 5 =
      .ok [.typed 1 (.val 5)] := by
  have h := @post_collects_valid_in_priority_order NVal
    ⟨[⟨1, ['a'], wrapHandler 1 (fun v => .ok (.typed 1 (.val v))), 0⟩], 1⟩ ['a'] 1 5
    ⟨by simp [regLT], ?_, by simp⟩ ?_ ?_
  · exact h.1.trans rfl
  · intro sub hsub
    have h2 : sub = ⟨1, ['a'], wrapHandler 1 (fun v => .ok (.typed 1 (.val v))), 0⟩ := by
      simpa using hsub
    rw [h2]
    exact ⟨Nat.one_pos, le_refl 1⟩
  · intro sub hsub
    have h2 : sub = ⟨1, ['a'], wrapHandler 1 (fun v => .ok (.typed 1 (.val v))), 0⟩ := by
      simpa using hsub
    rw [h2]
    decide
  · intro sub hsub
    have h2 : sub = ⟨1, ['a'], wrapHandler 1 (fun v => .ok (.typed 1 (.val v))), 0⟩ := by
      simpa using hsub
    rw [h2]
    exact ⟨.typed 1 (.val 5), rfl⟩

/-- C10 (confirmed): in every dispatch, the adapter hands each type-correct
handler a freshly allocated cell initialised from the envelope's stored
payload (`std::move(typedMsg->get())` moves from a `const T&`, which selects
the COPY constructor), and the envelope that reaches each subsequent handler
invocation is the unchanged original — so a handler mutating its copy can
never alter what a later handler of the same dispatch, or a later dispatch
of the same queued message, receives. -/
theorem delivery_copies_payload
    (hs : List ((t : Nat) × (Val t → Val t × HandlerOutcome Val))) (msg : Message Val) :
    (deliverSeq hs msg).1 = msg ∧
    (deliverSeq hs msg).2 = hs.map (fun _ => msg) ∧
    (∀ (t : Nat) (handler : Val t → Val t × HandlerOutcome Val) (heq : msg.tag = t),
      (wrapMutHandler t handler msg).2 = (handler (heq ▸ msg.data)).2) := by
  refine ⟨by rw [deliverSeq_eq], by rw [deliverSeq_eq], ?_⟩
  intro t handler heq
  cases msg with
  | mk tag data =>
    have h3 : tag = t := heq
    subst h3
    simp [wrapMutHandler]

theorem delivery_copies_payload_witness :
    @deliverSeq NVal
      [⟨1, fun v => (v + 1, .ok (.void ⟨true⟩))⟩] ⟨1, 5⟩ = (⟨1, 5⟩, [⟨1, 5⟩]) ∧
    (@wrapMutHandler NVal 1 (fun v => (v + 1, .ok (.void ⟨true⟩)))
      ⟨1, 5⟩).2 = .ok (.void ⟨true⟩) := by
  have h := @delivery_copies_payload NVal
    [⟨1, fun v => (v + 1, .ok (.void ⟨true⟩))⟩] ⟨1, 5⟩
  constructor
  · exact Prod.ext h.1 (h.2.1.trans rfl)
  · exact (h.2.2 1 (fun v => (v + 1, .ok (.void ⟨true⟩))) rfl).trans rfl

end EventBusModel
